import Mathlib

/-!
Verification of `src/pyvrl/models/classifiers/tsn/tsn_modules.py`.

Tensors are modelled shallowly: a shape (list of dimension sizes) together
with a total data function from index lists to rationals.  Only the values at
valid indices (componentwise below the shape) are meaningful.  Torch tensor
primitives used by the source (`mean`, `expand`, `view`, `unsqueeze`,
pooling, `nn.Linear`, `F.cross_entropy`) are embedded by their documented
row-major semantics.  Stochastic dropout is passed to the forward functions
as an explicit tensor transformation.
-/

/-- A tensor: a shape and a (total) data function on index lists. -/
structure Tensor where
  shape : List Nat
  data : List Nat → ℚ

/-- An index list is valid when it has one coordinate per dimension, each
below the corresponding size. -/
def validIdxB : List Nat → List Nat → Bool
  | [], [] => true
  | s :: sh, v :: i => decide (v < s) && validIdxB sh i
  | _, _ => false

/-- Validity of an index for a tensor. -/
def Tensor.validIdx (x : Tensor) (i : List Nat) : Bool :=
  validIdxB x.shape i

theorem validIdxB_iff_forall₂ (sh i : List Nat) :
    validIdxB sh i = true ↔ List.Forall₂ (fun a b => a < b) i sh := by
  induction sh generalizing i with
  | nil =>
    cases i with
    | nil => simp [validIdxB]
    | cons v i => simp [validIdxB]
  | cons s sh ih =>
    cases i with
    | nil => simp [validIdxB]
    | cons v i =>
      simp [validIdxB, ih, List.forall₂_cons]

/-- torch `x.mean(dim=d, keepdim=True)`: the reduced axis is kept with
size 1, each entry is the arithmetic mean over that axis. -/
def Tensor.meanKeepdim (x : Tensor) (d : Nat) : Tensor :=
  { shape := x.shape.set d 1,
    data := fun i =>
      (∑ k ∈ Finset.range (x.shape.getD d 0), x.data (i.set d k)) /
        ((x.shape.getD d 0 : ℚ)) }

/-- torch `x.expand(sh)` for a target of the same rank: size-1 axes of `x`
are broadcast, other coordinates pass through. -/
def Tensor.expand (x : Tensor) (sh : List Nat) : Tensor :=
  { shape := sh,
    data := fun i =>
      x.data (List.zipWith (fun s v => if s = 1 then 0 else v) x.shape i) }

/-- Division of every tensor entry by a scalar. -/
def Tensor.scalarDiv (x : Tensor) (c : ℚ) : Tensor :=
  { shape := x.shape, data := fun i => x.data i / c }

/-- Saved autograd context of `_SimpleConsensus`: `ctx.shape` and `ctx.dim`. -/
structure ConsensusCtx where
  shape : List Nat
  dim : Nat

namespace SimpleConsensusFn

/-- Python `_SimpleConsensus.forward(ctx, x, dim)`: saves `x.size()` and `dim` in the
context and returns `x.mean(dim=dim, keepdim=True)`. -/
def forward (x : Tensor) (dim : Nat) : ConsensusCtx × Tensor :=
  ({ shape := x.shape, dim := dim }, x.meanKeepdim dim)

/-- Python `_SimpleConsensus.backward(ctx, grad_output)`: returns
`grad_output.expand(ctx.shape) / float(ctx.shape[ctx.dim])`. -/
def backward (ctx : ConsensusCtx) (grad_output : Tensor) : Tensor :=
  (grad_output.expand ctx.shape).scalarDiv ((ctx.shape.getD ctx.dim 0 : ℚ))

end SimpleConsensusFn

/-- The `SimpleConsensus` module: stores the consensus axis. -/
structure SimpleConsensus where
  dim : Nat := 1

/-- Python `SimpleConsensus.forward(data)`: applies the consensus function. -/
def SimpleConsensus.forward (m : SimpleConsensus) (data : Tensor) : Tensor :=
  (SimpleConsensusFn.forward data m.dim).2

/-- The arithmetic mean of the entries of `x` obtained by letting the
coordinate at axis `d` of the index `i` run over that axis, written as a
plain list average.  This is the statement-side notion of "mean of the
input values taken along the axis". -/
def meanAlong (x : Tensor) (d : Nat) (i : List Nat) : ℚ :=
  (((List.range (x.shape.getD d 0)).map (fun k => x.data (i.set d k))).sum) /
    ((x.shape.getD d 0 : ℚ))

theorem list_range_map_sum (f : Nat → ℚ) (n : Nat) :
    ((List.range n).map f).sum = ∑ k ∈ Finset.range n, f k := by
  induction n with
  | zero => simp
  | succ n ih =>
    rw [List.range_succ, Finset.sum_range_succ]
    simp [ih]

/-- C1: the segmental consensus forward returns, at every index, the mean of
the input values along the configured axis. -/
theorem consensus_forward_is_mean (m : SimpleConsensus) (x : Tensor)
    (i : List Nat) :
    (m.forward x).data i = meanAlong x m.dim i := by
  unfold SimpleConsensus.forward SimpleConsensusFn.forward
  unfold Tensor.meanKeepdim meanAlong
  simp [list_range_map_sum]

theorem zipWith_mask_id (sh i : List Nat)
    (h : List.Forall₂ (fun a b => a < b) i sh) :
    List.zipWith (fun s v => if s = 1 then 0 else v) sh i = i := by
  induction h with
  | nil => rfl
  | @cons v s i sh hvs _ ih =>
    simp only [List.zipWith]
    rw [ih]
    by_cases hs : s = 1
    · subst hs
      have : v = 0 := by omega
      simp [this]
    · simp [hs]

theorem zipWith_mask_set (sh i : List Nat) (d k : Nat)
    (h : List.Forall₂ (fun a b => a < b) i sh) :
    List.zipWith (fun s v => if s = 1 then 0 else v) (sh.set d 1) (i.set d k)
      = i.set d 0 := by
  induction h generalizing d with
  | nil => simp
  | @cons v s i sh hvs htail ih =>
    cases d with
    | zero =>
      simp only [List.set, List.zipWith]
      rw [zipWith_mask_id sh i htail]
      simp
    | succ d =>
      simp only [List.set, List.zipWith]
      rw [ih d]
      by_cases hs : s = 1
      · subst hs
        have : v = 0 := by omega
        simp [this]
      · simp [hs]

/-- C2: the consensus backward pass gives every input segment (every
position `k` along the consensus axis) the same gradient, namely the
upstream gradient at that location divided by the input's size along the
consensus axis; it also restores the input shape. -/
theorem consensus_backward_uniform (ctx : ConsensusCtx) (g : Tensor)
    (hg : g.shape = ctx.shape.set ctx.dim 1)
    (i : List Nat) (hi : validIdxB ctx.shape i = true)
    (k : Nat) :
    (SimpleConsensusFn.backward ctx g).data (i.set ctx.dim k)
        = g.data (i.set ctx.dim 0) / ((ctx.shape.getD ctx.dim 0 : ℚ)) ∧
      (SimpleConsensusFn.backward ctx g).shape = ctx.shape := by
  constructor
  · unfold SimpleConsensusFn.backward Tensor.expand Tensor.scalarDiv
    simp only
    rw [hg, zipWith_mask_set ctx.shape i ctx.dim k
      ((validIdxB_iff_forall₂ ctx.shape i).mp hi)]
  · rfl

theorem consensus_backward_uniform_witness :
    ((⟨[2, 1], fun i => 6 * (i.getD 0 0 : ℚ) + (i.getD 1 0 : ℚ)⟩ : Tensor).shape
        = ([2, 3] : List Nat).set 1 1 ∧
      validIdxB [2, 3] [1, 2] = true) ∧
    ((SimpleConsensusFn.backward ⟨[2, 3], 1⟩
        ⟨[2, 1], fun i => 6 * (i.getD 0 0 : ℚ) + (i.getD 1 0 : ℚ)⟩).data
          (([1, 2] : List Nat).set 1 0)
        = (⟨[2, 1], fun i => 6 * (i.getD 0 0 : ℚ) + (i.getD 1 0 : ℚ)⟩ :
            Tensor).data (([1, 2] : List Nat).set 1 0) /
          ((([2, 3] : List Nat).getD 1 0 : ℚ)) ∧
      (SimpleConsensusFn.backward ⟨[2, 3], 1⟩
        ⟨[2, 1], fun i => 6 * (i.getD 0 0 : ℚ) + (i.getD 1 0 : ℚ)⟩).shape
          = [2, 3]) := by
  refine ⟨⟨rfl, by decide⟩, ?_⟩
  have h := consensus_backward_uniform ⟨[2, 3], 1⟩
    ⟨[2, 1], fun i => 6 * (i.getD 0 0 : ℚ) + (i.getD 1 0 : ℚ)⟩ rfl
    [1, 2] (by decide) 0
  exact h

/-- C9: the consensus forward keeps the reduced axis (keepdim): the output
has the same rank as the input, size 1 along the consensus axis, and every
other dimension unchanged. -/
theorem consensus_forward_keepdim (m : SimpleConsensus) (x : Tensor)
    (h : m.dim < x.shape.length) :
    (m.forward x).shape.length = x.shape.length ∧
      (m.forward x).shape.getD m.dim 0 = 1 ∧
      ∀ k, k ≠ m.dim → (m.forward x).shape.getD k 0 = x.shape.getD k 0 := by
  unfold SimpleConsensus.forward SimpleConsensusFn.forward Tensor.meanKeepdim
  refine ⟨by simp, ?_, ?_⟩
  · simp only [List.getD, List.get?_eq_getElem?]
    rw [List.getElem?_set_self (by omega)]
    rfl
  · intro k hk
    simp only [List.getD, List.get?_eq_getElem?]
    rw [List.getElem?_set_ne (by omega)]

theorem consensus_forward_keepdim_witness :
    (({ dim := 1 } : SimpleConsensus).dim <
        (⟨[4, 2, 5], fun _ => 0⟩ : Tensor).shape.length) ∧
    ((({ dim := 1 } : SimpleConsensus).forward
          ⟨[4, 2, 5], fun _ => 0⟩).shape.length
        = (⟨[4, 2, 5], fun _ => (0 : ℚ)⟩ : Tensor).shape.length ∧
      (({ dim := 1 } : SimpleConsensus).forward
          ⟨[4, 2, 5], fun _ => 0⟩).shape.getD 1 0 = 1 ∧
      ∀ k, k ≠ ({ dim := 1 } : SimpleConsensus).dim →
        (({ dim := 1 } : SimpleConsensus).forward
            ⟨[4, 2, 5], fun _ => 0⟩).shape.getD k 0
          = (⟨[4, 2, 5], fun _ => (0 : ℚ)⟩ : Tensor).shape.getD k 0) := by
  refine ⟨by decide, ?_⟩
  exact consensus_forward_keepdim { dim := 1 } ⟨[4, 2, 5], fun _ => 0⟩
    (by decide)

/-- The value stored in `self.spatial_size`: either the raw integer (when it
is `-1`) or the pair `(spatial_size, spatial_size)`. -/
inductive SpatialSizeVal where
  | int : Int → SpatialSizeVal
  | pair : Int → Int → SpatialSizeVal
deriving DecidableEq

/-- Python `self.spatial_size == -1` on the stored value: a tuple never
equals an integer. -/
def SpatialSizeVal.eqNeg1 : SpatialSizeVal → Bool
  | .int n => decide (n = -1)
  | .pair _ _ => false

/-- The pooling layer stored in `self.pool_func`, with its constructor
arguments (adaptive target size, or kernel / stride / padding). -/
inductive PoolFunc where
  | adaptiveAvgPool3d : Nat × Nat × Nat → PoolFunc
  | adaptiveMaxPool3d : Nat × Nat × Nat → PoolFunc
  | avgPool3dFixed : Int × Int × Int → Nat → Nat → PoolFunc
  | maxPool3dFixed : Int × Int × Int → Nat → Nat → PoolFunc
deriving DecidableEq

/-- Whether the stored pooling layer is one of the adaptive variants. -/
def PoolFunc.isAdaptive : PoolFunc → Bool
  | .adaptiveAvgPool3d _ => true
  | .adaptiveMaxPool3d _ => true
  | .avgPool3dFixed _ _ _ => false
  | .maxPool3dFixed _ _ _ => false

/-- The constructed `SimpleSTModule` with its stored attributes. -/
structure SimpleSTModule where
  spatial_type : String
  spatial_size : SpatialSizeVal
  temporal_size : Int
  pool_size : Int × Int × Int
  pool_func : PoolFunc
deriving DecidableEq

/-- Python `SimpleSTModule.__init__`: asserts the pooling type, stores
`spatial_size` (as a pair unless it is `-1`), asserts
`not (self.spatial_size == -1) ^ (self.temporal_size == -1)`, then selects
the adaptive pooling layers with target `(1, 1, 1)` when both sizes are
`-1`, and otherwise the fixed-kernel layers with kernel
`(temporal_size,) + self.spatial_size`, stride 1 and padding 0.  A failed
assertion (or the tuple concatenation on a non-tuple, which is unreachable)
is an error result. -/
def SimpleSTModule.init (spatial_type : String)
    (spatial_size temporal_size : Int) : Except String SimpleSTModule :=
  if spatial_type = "avg" ∨ spatial_type = "max" then
    let ssv : SpatialSizeVal :=
      if spatial_size ≠ -1 then .pair spatial_size spatial_size
      else .int spatial_size
    if (ssv.eqNeg1 != decide (temporal_size = -1)) = true then
      .error "assert not (self.spatial_size == -1) ^ (self.temporal_size == -1)"
    else if temporal_size = -1 ∧ ssv.eqNeg1 = true then
      .ok { spatial_type := spatial_type, spatial_size := ssv,
            temporal_size := temporal_size, pool_size := (1, 1, 1),
            pool_func := if spatial_type = "avg" then .adaptiveAvgPool3d (1, 1, 1)
                         else .adaptiveMaxPool3d (1, 1, 1) }
    else
      match ssv with
      | .pair a b =>
        .ok { spatial_type := spatial_type, spatial_size := .pair a b,
              temporal_size := temporal_size,
              pool_size := (temporal_size, a, b),
              pool_func := if spatial_type = "avg"
                then .avgPool3dFixed (temporal_size, a, b) 1 0
                else .maxPool3dFixed (temporal_size, a, b) 1 0 }
      | .int _ => .error "TypeError: can only concatenate tuple to tuple"
  else .error "assert spatial_type in avg max"

/-- Maximum of a list of rationals (tensor windows are never empty when
this is used). -/
def qListMax : List ℚ → ℚ
  | [] => 0
  | [a] => a
  | a :: rest => max a (qListMax rest)

/-- torch `nn.AdaptiveAvgPool3d((1, 1, 1))` on a 5-D tensor: with target
size `(1, 1, 1)` this is the global average over the last three axes. -/
def adaptiveAvgPool3dGlobal (x : Tensor) : Tensor :=
  { shape := [x.shape.getD 0 0, x.shape.getD 1 0, 1, 1, 1],
    data := fun i =>
      (∑ a ∈ Finset.range (x.shape.getD 2 0),
        ∑ b ∈ Finset.range (x.shape.getD 3 0),
          ∑ c ∈ Finset.range (x.shape.getD 4 0),
            x.data [i.getD 0 0, i.getD 1 0, a, b, c]) /
        ((x.shape.getD 2 0 * x.shape.getD 3 0 * x.shape.getD 4 0 : ℚ)) }

/-- torch `nn.AdaptiveMaxPool3d((1, 1, 1))` on a 5-D tensor: with target
size `(1, 1, 1)` this is the global maximum over the last three axes. -/
def adaptiveMaxPool3dGlobal (x : Tensor) : Tensor :=
  { shape := [x.shape.getD 0 0, x.shape.getD 1 0, 1, 1, 1],
    data := fun i =>
      qListMax ((List.range (x.shape.getD 2 0)).flatMap (fun a =>
        (List.range (x.shape.getD 3 0)).flatMap (fun b =>
          (List.range (x.shape.getD 4 0)).map (fun c =>
            x.data [i.getD 0 0, i.getD 1 0, a, b, c])))) }

/-- torch `nn.AvgPool3d(kernel, stride, padding=0)` on a 5-D tensor, with a
per-axis stride (torch defaults the stride to the kernel size). -/
def avgPool3d (kt kh kw st sh sw : Nat) (x : Tensor) : Tensor :=
  { shape := [x.shape.getD 0 0, x.shape.getD 1 0,
      (x.shape.getD 2 0 - kt) / st + 1, (x.shape.getD 3 0 - kh) / sh + 1,
      (x.shape.getD 4 0 - kw) / sw + 1],
    data := fun i =>
      (∑ a ∈ Finset.range kt, ∑ b ∈ Finset.range kh, ∑ c ∈ Finset.range kw,
        x.data [i.getD 0 0, i.getD 1 0, i.getD 2 0 * st + a,
          i.getD 3 0 * sh + b, i.getD 4 0 * sw + c]) / ((kt * kh * kw : ℚ)) }

/-- torch `nn.MaxPool3d(kernel, stride, padding=0)` on a 5-D tensor. -/
def maxPool3d (kt kh kw st sh sw : Nat) (x : Tensor) : Tensor :=
  { shape := [x.shape.getD 0 0, x.shape.getD 1 0,
      (x.shape.getD 2 0 - kt) / st + 1, (x.shape.getD 3 0 - kh) / sh + 1,
      (x.shape.getD 4 0 - kw) / sw + 1],
    data := fun i =>
      qListMax ((List.range kt).flatMap (fun a =>
        (List.range kh).flatMap (fun b =>
          (List.range kw).map (fun c =>
            x.data [i.getD 0 0, i.getD 1 0, i.getD 2 0 * st + a,
              i.getD 3 0 * sh + b, i.getD 4 0 * sw + c])))) }

/-- Application of the stored pooling layer.  The constructed layers only
ever carry adaptive target `(1, 1, 1)` and padding `0`, so those are the
semantics applied. -/
def PoolFunc.apply : PoolFunc → Tensor → Tensor
  | .adaptiveAvgPool3d _, x => adaptiveAvgPool3dGlobal x
  | .adaptiveMaxPool3d _, x => adaptiveMaxPool3dGlobal x
  | .avgPool3dFixed (kt, kh, kw) st _, x =>
      avgPool3d kt.toNat kh.toNat kw.toNat st st st x
  | .maxPool3dFixed (kt, kh, kw) st _, x =>
      maxPool3d kt.toNat kh.toNat kw.toNat st st st x

/-- Python `SimpleSTModule.forward(data)`: `self.pool_func(data)`. -/
def SimpleSTModule.forward (m : SimpleSTModule) (data : Tensor) : Tensor :=
  m.pool_func.apply data

/-- Whether an `Except` result is an error. -/
def isErr {α : Type} : Except String α → Bool
  | .error _ => true
  | .ok _ => false

theorem stmodule_init_adaptive (ty : String) (hty : ty = "avg" ∨ ty = "max") :
    SimpleSTModule.init ty (-1) (-1) =
      .ok { spatial_type := ty, spatial_size := .int (-1),
            temporal_size := -1, pool_size := (1, 1, 1),
            pool_func := if ty = "avg" then .adaptiveAvgPool3d (1, 1, 1)
                         else .adaptiveMaxPool3d (1, 1, 1) } := by
  unfold SimpleSTModule.init
  rw [if_pos hty]
  simp [SpatialSizeVal.eqNeg1]

theorem stmodule_init_fixed (ty : String) (hty : ty = "avg" ∨ ty = "max")
    (s t : Int) (hs : s ≠ -1) (ht : t ≠ -1) :
    SimpleSTModule.init ty s t =
      .ok { spatial_type := ty, spatial_size := .pair s s,
            temporal_size := t, pool_size := (t, s, s),
            pool_func := if ty = "avg" then .avgPool3dFixed (t, s, s) 1 0
                         else .maxPool3dFixed (t, s, s) 1 0 } := by
  unfold SimpleSTModule.init
  rw [if_pos hty]
  simp [SpatialSizeVal.eqNeg1, hs, ht]

theorem stmodule_init_err (ty : String) (s t : Int)
    (hxor : ¬(s = -1 ↔ t = -1)) :
    isErr (SimpleSTModule.init ty s t) = true := by
  unfold SimpleSTModule.init
  by_cases hty : ty = "avg" ∨ ty = "max"
  · rw [if_pos hty]
    by_cases hs : s = -1
    · have ht : ¬t = -1 := by tauto
      simp [SpatialSizeVal.eqNeg1, hs, ht, isErr]
    · have ht : t = -1 := by tauto
      simp [SpatialSizeVal.eqNeg1, hs, ht, isErr]
  · rw [if_neg hty]
    rfl

/-- C4: for an accepted configuration, the constructed pooling layer is
adaptive (target `(1, 1, 1)`, matching the spatial type) exactly when both
the temporal and the spatial size are `-1`; in every other accepted
configuration it is the fixed-kernel layer with kernel
`(temporal_size, spatial_size, spatial_size)`. -/
theorem stmodule_adaptive_iff (ty : String) (hty : ty = "avg" ∨ ty = "max")
    (s t : Int) (m : SimpleSTModule)
    (hm : SimpleSTModule.init ty s t = .ok m) :
    (m.pool_func.isAdaptive = true ↔ (t = -1 ∧ s = -1)) ∧
      ((t = -1 ∧ s = -1) →
        m.pool_func = if ty = "avg" then .adaptiveAvgPool3d (1, 1, 1)
                      else .adaptiveMaxPool3d (1, 1, 1)) ∧
      (¬(t = -1 ∧ s = -1) →
        m.pool_func = if ty = "avg" then .avgPool3dFixed (t, s, s) 1 0
                      else .maxPool3dFixed (t, s, s) 1 0) := by
  by_cases hs : s = -1 <;> by_cases ht : t = -1
  · subst hs; subst ht
    rw [stmodule_init_adaptive ty hty] at hm
    cases hm
    refine ⟨?_, fun _ => rfl, fun hc => absurd ⟨rfl, rfl⟩ hc⟩
    by_cases hav : ty = "avg" <;> simp [hav, PoolFunc.isAdaptive]
  · have := stmodule_init_err ty s t (by tauto)
    rw [hm] at this
    simp [isErr] at this
  · have := stmodule_init_err ty s t (by tauto)
    rw [hm] at this
    simp [isErr] at this
  · rw [stmodule_init_fixed ty hty s t hs ht] at hm
    cases hm
    refine ⟨?_, fun hc => absurd hc.1 ht, fun _ => rfl⟩
    constructor
    · intro hAd
      exfalso
      by_cases hav : ty = "avg" <;>
        simp [hav, PoolFunc.isAdaptive] at hAd
    · intro hc
      exact absurd hc.1 ht

theorem stmodule_adaptive_iff_witness :
    (("avg" : String) = "avg" ∨ ("avg" : String) = "max") ∧
    (SimpleSTModule.init "avg" 7 1 =
      .ok { spatial_type := "avg", spatial_size := .pair 7 7,
            temporal_size := 1, pool_size := (1, 7, 7),
            pool_func := .avgPool3dFixed (1, 7, 7) 1 0 }) ∧
    (({ spatial_type := "avg", spatial_size := .pair 7 7,
        temporal_size := 1, pool_size := (1, 7, 7),
        pool_func := .avgPool3dFixed (1, 7, 7) 1 0 } :
          SimpleSTModule).pool_func.isAdaptive = true ↔
        ((1 : Int) = -1 ∧ (7 : Int) = -1)) ∧
      (((1 : Int) = -1 ∧ (7 : Int) = -1) →
        ({ spatial_type := "avg", spatial_size := .pair 7 7,
           temporal_size := 1, pool_size := (1, 7, 7),
           pool_func := .avgPool3dFixed (1, 7, 7) 1 0 } :
             SimpleSTModule).pool_func
          = if ("avg" : String) = "avg" then .adaptiveAvgPool3d (1, 1, 1)
            else .adaptiveMaxPool3d (1, 1, 1)) ∧
      (¬((1 : Int) = -1 ∧ (7 : Int) = -1) →
        ({ spatial_type := "avg", spatial_size := .pair 7 7,
           temporal_size := 1, pool_size := (1, 7, 7),
           pool_func := .avgPool3dFixed (1, 7, 7) 1 0 } :
             SimpleSTModule).pool_func
          = if ("avg" : String) = "avg" then .avgPool3dFixed (1, 7, 7) 1 0
            else .maxPool3dFixed (1, 7, 7) 1 0) := by
  refine ⟨Or.inl rfl, rfl, ?_⟩
  exact stmodule_adaptive_iff "avg" (Or.inl rfl) 7 1 _ rfl

/-- C5: with an accepted pooling type, construction fails (with the
mutual-exclusion assertion) exactly when exactly one of the spatial and
temporal sizes is `-1`; with both `-1` or neither `-1` it succeeds. -/
theorem stmodule_assert_xor (ty : String) (hty : ty = "avg" ∨ ty = "max")
    (s t : Int) :
    isErr (SimpleSTModule.init ty s t) = true ↔ ¬(s = -1 ↔ t = -1) := by
  constructor
  · intro herr
    intro hiff
    by_cases hs : s = -1
    · have ht : t = -1 := hiff.mp hs
      subst hs; subst ht
      rw [stmodule_init_adaptive ty hty] at herr
      simp [isErr] at herr
    · have ht : ¬t = -1 := fun h => hs (hiff.mpr h)
      rw [stmodule_init_fixed ty hty s t hs ht] at herr
      simp [isErr] at herr
  · exact stmodule_init_err ty s t

theorem stmodule_assert_xor_witness :
    (("max" : String) = "avg" ∨ ("max" : String) = "max") ∧
    (isErr (SimpleSTModule.init "max" (-1) 5) = true ↔
      ¬((-1 : Int) = -1 ↔ (5 : Int) = -1)) := by
  refine ⟨Or.inr rfl, ?_⟩
  exact stmodule_assert_xor "max" (Or.inr rfl) (-1) 5

/-- C10: in adaptive mode the pooled output of a 5-D input always has
temporal, height and width sizes 1 (the adaptive target is `(1, 1, 1)`),
whatever the input extents; and in fixed mode the constructed kernel layer
carries stride 1 and padding 0. -/
theorem stmodule_adaptive_shape_and_fixed_stride (ty : String)
    (hty : ty = "avg" ∨ ty = "max") (m : SimpleSTModule)
    (hm : SimpleSTModule.init ty (-1) (-1) = .ok m)
    (x : Tensor) (_hx : x.shape.length = 5) :
    (m.forward x).shape = [x.shape.getD 0 0, x.shape.getD 1 0, 1, 1, 1] ∧
      ∀ (s t : Int), s ≠ -1 → t ≠ -1 →
        ∀ m' : SimpleSTModule, SimpleSTModule.init ty s t = .ok m' →
          m'.pool_func = if ty = "avg" then .avgPool3dFixed (t, s, s) 1 0
                         else .maxPool3dFixed (t, s, s) 1 0 := by
  refine ⟨?_, ?_⟩
  · rw [stmodule_init_adaptive ty hty] at hm
    cases hm
    unfold SimpleSTModule.forward
    by_cases hav : ty = "avg" <;>
      simp [hav, PoolFunc.apply, adaptiveAvgPool3dGlobal,
        adaptiveMaxPool3dGlobal]
  · intro s t hs ht m' hm'
    rw [stmodule_init_fixed ty hty s t hs ht] at hm'
    cases hm'
    rfl

theorem stmodule_adaptive_shape_and_fixed_stride_witness :
    ((("avg" : String) = "avg" ∨ ("avg" : String) = "max") ∧
      SimpleSTModule.init "avg" (-1) (-1) =
        .ok { spatial_type := "avg", spatial_size := .int (-1),
              temporal_size := -1, pool_size := (1, 1, 1),
              pool_func := .adaptiveAvgPool3d (1, 1, 1) } ∧
      (⟨[2, 3, 4, 5, 6], fun _ => (0 : ℚ)⟩ : Tensor).shape.length = 5) ∧
    ((({ spatial_type := "avg", spatial_size := .int (-1),
         temporal_size := -1, pool_size := (1, 1, 1),
         pool_func := .adaptiveAvgPool3d (1, 1, 1) } :
          SimpleSTModule).forward ⟨[2, 3, 4, 5, 6], fun _ => 0⟩).shape
        = [(⟨[2, 3, 4, 5, 6], fun _ => (0 : ℚ)⟩ : Tensor).shape.getD 0 0,
           (⟨[2, 3, 4, 5, 6], fun _ => (0 : ℚ)⟩ : Tensor).shape.getD 1 0,
           1, 1, 1] ∧
      ∀ (s t : Int), s ≠ -1 → t ≠ -1 →
        ∀ m' : SimpleSTModule, SimpleSTModule.init "avg" s t = .ok m' →
          m'.pool_func = if ("avg" : String) = "avg"
            then .avgPool3dFixed (t, s, s) 1 0
            else .maxPool3dFixed (t, s, s) 1 0) := by
  refine ⟨⟨Or.inl rfl, rfl, by decide⟩, ?_⟩
  exact stmodule_adaptive_shape_and_fixed_stride "avg" (Or.inl rfl) _
    rfl ⟨[2, 3, 4, 5, 6], fun _ => 0⟩ (by decide)

/-- Row-major decoding of a linear position into a multi-index for the
given dimension sizes. -/
def decodeIdx : List Nat → Nat → List Nat
  | [], _ => []
  | _ :: ds, pos => (pos / ds.prod) :: decodeIdx ds (pos % ds.prod)

/-- torch `x.view(m, -1)`: a row-major reshape to two dimensions, the
second inferred as the remaining element count. -/
def Tensor.view2d (x : Tensor) (m : Nat) : Tensor :=
  { shape := [m, x.shape.prod / m],
    data := fun i =>
      x.data (decodeIdx x.shape
        (i.getD 0 0 * (x.shape.prod / m) + i.getD 1 0)) }

/-- torch `x.unsqueeze(d)`: inserts a size-1 axis at position `d`. -/
def Tensor.unsqueeze (x : Tensor) (d : Nat) : Tensor :=
  { shape := x.shape.insertIdx d 1,
    data := fun i => x.data (i.eraseIdx d) }

/-- The constructed `SimpleClsHead`: its stored configuration and the
weights of the affine class projection `fc_cls` (the only parameterised
layer; `init_std` only seeds the random weight initialisation).  By the
source, `fc_cls` has `nonlinear_channels` input features when `non_linear`
is set and `in_channels` otherwise. -/
structure SimpleClsHead where
  with_avg_pool : Bool := true
  temporal_feature_size : Nat := 1
  spatial_feature_size : Nat := 7
  dropout_ratio : ℚ := 8 / 10
  in_channels : Nat := 2048
  num_classes : Nat := 101
  non_linear : Bool := false
  nonlinear_channels : Nat := 2048
  fc_cls_weight : Nat → Nat → ℚ
  fc_cls_bias : Nat → ℚ

/-- Layer `self.fc_cls`, a `nn.Linear` applied to a 2-D tensor row-wise. -/
def SimpleClsHead.fcCls (h : SimpleClsHead) (x : Tensor) : Tensor :=
  { shape := [x.shape.getD 0 0, h.num_classes],
    data := fun i =>
      (∑ k ∈ Finset.range
          (if h.non_linear then h.nonlinear_channels else h.in_channels),
        h.fc_cls_weight (i.getD 1 0) k * x.data [i.getD 0 0, k]) +
        h.fc_cls_bias (i.getD 1 0) }

/-- Layer `self.fc_nl`, the non-linear block: `nn.Sequential(nn.Identity())`,
that is, the identity (the projection layers are commented out in the
source). -/
def SimpleClsHead.fcNl (x : Tensor) : Tensor := x

/-- Python `SimpleClsHead.forward(x)`: a 4-D input gets a size-1 temporal axis
inserted at position 2; the channel, temporal and two spatial extents are
then asserted against the configuration; the accepted tensor is average
pooled (kernel and default stride
`(temporal_feature_size, spatial_feature_size, spatial_feature_size)`)
when `with_avg_pool` is set, passed through dropout when
`dropout_ratio != 0` (dropout, a stochastic layer, is supplied as an
explicit function), flattened to `(batch, -1)`, passed through `fc_nl`
when `non_linear` is set, and projected by `fc_cls`. -/
def SimpleClsHead.forward (h : SimpleClsHead) (dropout : Tensor → Tensor)
    (x : Tensor) : Except String Tensor :=
  let x := if x.shape.length = 4 then x.unsqueeze 2 else x
  if x.shape.getD 1 0 ≠ h.in_channels then
    .error "assert x.shape 1 == self.in_channels"
  else if x.shape.getD 2 0 ≠ h.temporal_feature_size then
    .error "assert x.shape 2 == self.temporal_feature_size"
  else if x.shape.getD 3 0 ≠ h.spatial_feature_size then
    .error "assert x.shape 3 == self.spatial_feature_size"
  else if x.shape.getD 4 0 ≠ h.spatial_feature_size then
    .error "assert x.shape 4 == self.spatial_feature_size"
  else
    let x := if h.with_avg_pool then
        avgPool3d h.temporal_feature_size h.spatial_feature_size
          h.spatial_feature_size h.temporal_feature_size
          h.spatial_feature_size h.spatial_feature_size x
      else x
    let x := if h.dropout_ratio ≠ 0 then dropout x else x
    let x := x.view2d (x.shape.getD 0 0)
    let x := if h.non_linear then SimpleClsHead.fcNl x else x
    .ok (h.fcCls x)

/-- The head's feature pipeline up to (and excluding) the class
projection: 4-D adjustment, average pooling, dropout, and flattening.
These are the "pooled, dropout-processed, flattened features". -/
def SimpleClsHead.features (h : SimpleClsHead) (dropout : Tensor → Tensor)
    (x : Tensor) : Tensor :=
  let x := if x.shape.length = 4 then x.unsqueeze 2 else x
  let x := if h.with_avg_pool then
      avgPool3d h.temporal_feature_size h.spatial_feature_size
        h.spatial_feature_size h.temporal_feature_size
        h.spatial_feature_size h.spatial_feature_size x
    else x
  let x := if h.dropout_ratio ≠ 0 then dropout x else x
  x.view2d (x.shape.getD 0 0)

/-- C6: on a 5-D input, the classification head's forward raises one of the
four shape assertions exactly when the channel, temporal, or one of the two
spatial extents differs from the configuration; an input matching all four
checks is not rejected. -/
theorem clshead_forward_shape_asserts (h : SimpleClsHead)
    (dropout : Tensor → Tensor) (x : Tensor) (h5 : x.shape.length = 5) :
    isErr (h.forward dropout x) = true ↔
      (x.shape.getD 1 0 ≠ h.in_channels ∨
        x.shape.getD 2 0 ≠ h.temporal_feature_size ∨
        x.shape.getD 3 0 ≠ h.spatial_feature_size ∨
        x.shape.getD 4 0 ≠ h.spatial_feature_size) := by
  have h4 : ¬x.shape.length = 4 := by omega
  unfold SimpleClsHead.forward
  by_cases c1 : x.shape.getD 1 0 = h.in_channels <;>
    by_cases c2 : x.shape.getD 2 0 = h.temporal_feature_size <;>
      by_cases c3 : x.shape.getD 3 0 = h.spatial_feature_size <;>
        by_cases c4 : x.shape.getD 4 0 = h.spatial_feature_size <;>
          simp only [List.getD_eq_getElem?_getD] at c1 c2 c3 c4 <;>
            simp [isErr, h4, c1, c2, c3, c4]

theorem clshead_forward_shape_asserts_witness :
    ((⟨[1, 3, 1, 2, 2], fun _ => (0 : ℚ)⟩ : Tensor).shape.length = 5) ∧
    (isErr (SimpleClsHead.forward
          { temporal_feature_size := 1, spatial_feature_size := 2,
            in_channels := 3, fc_cls_weight := fun _ _ => 0,
            fc_cls_bias := fun _ => 0 }
          (fun y => y) ⟨[1, 3, 1, 2, 2], fun _ => 0⟩) = true ↔
      ((⟨[1, 3, 1, 2, 2], fun _ => (0 : ℚ)⟩ : Tensor).shape.getD 1 0 ≠ 3 ∨
        (⟨[1, 3, 1, 2, 2], fun _ => (0 : ℚ)⟩ : Tensor).shape.getD 2 0 ≠ 1 ∨
        (⟨[1, 3, 1, 2, 2], fun _ => (0 : ℚ)⟩ : Tensor).shape.getD 3 0 ≠ 2 ∨
        (⟨[1, 3, 1, 2, 2], fun _ => (0 : ℚ)⟩ : Tensor).shape.getD 4 0 ≠ 2)) := by
  refine ⟨by decide, ?_⟩
  exact clshead_forward_shape_asserts
    { temporal_feature_size := 1, spatial_feature_size := 2,
      in_channels := 3, fc_cls_weight := fun _ _ => 0,
      fc_cls_bias := fun _ => 0 }
    (fun y => y) ⟨[1, 3, 1, 2, 2], fun _ => 0⟩ (by decide)

/-- C8: the head's forward also accepts 4-D inputs: a size-1 temporal axis
is inserted at position 2 before the checks, so a 4-D input passes
validation exactly when the configured temporal size is 1 and the channel
and the two spatial extents match. -/
theorem clshead_forward_4d (h : SimpleClsHead) (dropout : Tensor → Tensor)
    (x : Tensor) (h4 : x.shape.length = 4) :
    isErr (h.forward dropout x) = false ↔
      (x.shape.getD 1 0 = h.in_channels ∧ h.temporal_feature_size = 1 ∧
        x.shape.getD 2 0 = h.spatial_feature_size ∧
        x.shape.getD 3 0 = h.spatial_feature_size) := by
  obtain ⟨sh, dat⟩ := x
  simp only at h4
  rcases sh with _ | ⟨a, _ | ⟨b, _ | ⟨c, _ | ⟨d, _ | ⟨e, rest⟩⟩⟩⟩⟩ <;>
    simp only [List.length] at h4 <;> try omega
  have hx2 : (Tensor.unsqueeze ⟨[a, b, c, d], dat⟩ 2)
      = ⟨[a, b, 1, c, d], fun i => dat (i.eraseIdx 2)⟩ := rfl
  simp only [SimpleClsHead.forward]
  rw [if_pos (by simp : ((⟨[a, b, c, d], dat⟩ : Tensor)).shape.length = 4),
    hx2]
  by_cases c1 : b = h.in_channels
  case neg => simp [isErr, c1]
  case pos =>
  subst c1
  by_cases c2 : 1 = h.temporal_feature_size
  case neg =>
    simp [isErr, c2]
    omega
  case pos =>
  by_cases c3 : c = h.spatial_feature_size
  case neg => simp [isErr, ← c2, c3]
  case pos =>
  subst c3
  by_cases c4 : d = h.spatial_feature_size
  case neg => simp [isErr, ← c2, c4]
  case pos =>
  subst c4
  simp [isErr, ← c2]

theorem clshead_forward_4d_witness :
    ((⟨[1, 3, 2, 2], fun _ => (0 : ℚ)⟩ : Tensor).shape.length = 4) ∧
    (isErr (SimpleClsHead.forward
          { temporal_feature_size := 1, spatial_feature_size := 2,
            in_channels := 3, fc_cls_weight := fun _ _ => 0,
            fc_cls_bias := fun _ => 0 }
          (fun y => y) ⟨[1, 3, 2, 2], fun _ => 0⟩) = false ↔
      ((⟨[1, 3, 2, 2], fun _ => (0 : ℚ)⟩ : Tensor).shape.getD 1 0 = 3 ∧
        (1 : Nat) = 1 ∧
        (⟨[1, 3, 2, 2], fun _ => (0 : ℚ)⟩ : Tensor).shape.getD 2 0 = 2 ∧
        (⟨[1, 3, 2, 2], fun _ => (0 : ℚ)⟩ : Tensor).shape.getD 3 0 = 2)) := by
  refine ⟨by decide, ?_⟩
  exact clshead_forward_4d
    { temporal_feature_size := 1, spatial_feature_size := 2,
      in_channels := 3, fc_cls_weight := fun _ _ => 0,
      fc_cls_bias := fun _ => 0 }
    (fun y => y) ⟨[1, 3, 2, 2], fun _ => 0⟩ (by decide)

/-- C7: with `non_linear` enabled the non-linear block is the identity, so
every accepted input produces exactly `fc_cls` of the pooled,
dropout-processed, flattened features, and (when `nonlinear_channels`
equals `in_channels`, so that `fc_cls` has the same input width) the
forward result is the same as with `non_linear` disabled. -/
theorem clshead_nonlinear_noop (h : SimpleClsHead)
    (dropout : Tensor → Tensor) (x : Tensor)
    (hnl : h.non_linear = true)
    (hch : h.nonlinear_channels = h.in_channels) :
    (∀ y, h.forward dropout x = .ok y →
        y = h.fcCls (h.features dropout x)) ∧
      h.forward dropout x = ({ h with non_linear := false }).forward dropout x := by
  have hfc : ∀ z : Tensor, h.fcCls z = ({ h with non_linear := false }).fcCls z := by
    intro z
    unfold SimpleClsHead.fcCls
    simp [hnl, hch]
  constructor
  · intro y hy
    simp only [SimpleClsHead.forward, hnl, if_true, SimpleClsHead.fcNl] at hy
    unfold SimpleClsHead.features
    generalize hX : (if x.shape.length = 4 then x.unsqueeze 2 else x) = xa at hy ⊢
    split at hy
    · exact Except.noConfusion hy
    · split at hy
      · exact Except.noConfusion hy
      · split at hy
        · exact Except.noConfusion hy
        · split at hy
          · exact Except.noConfusion hy
          · cases hy
            rfl
  · simp only [SimpleClsHead.forward, hnl, if_true, SimpleClsHead.fcNl]
    simp [hfc]

/-- A concrete head used to instantiate the non-linear no-op theorem. -/
def clsHeadW : SimpleClsHead :=
  { non_linear := true, nonlinear_channels := 2, in_channels := 2,
    temporal_feature_size := 1, spatial_feature_size := 1,
    fc_cls_weight := fun _ _ => 1, fc_cls_bias := fun _ => 0 }

/-- A concrete accepted input for that head. -/
def tensorW : Tensor := ⟨[1, 2, 1, 1, 1], fun _ => 3⟩

theorem clshead_nonlinear_noop_witness :
    (clsHeadW.non_linear = true ∧
      clsHeadW.nonlinear_channels = clsHeadW.in_channels) ∧
    ((∀ y, clsHeadW.forward id tensorW = .ok y →
        y = clsHeadW.fcCls (clsHeadW.features id tensorW)) ∧
      clsHeadW.forward id tensorW
        = ({ clsHeadW with non_linear := false }).forward id tensorW) := by
  exact ⟨⟨rfl, rfl⟩, clshead_nonlinear_noop clsHeadW id tensorW rfl rfl⟩

/-- torch `F.cross_entropy` with the default mean reduction, on 2-D logits
`(N, C)` and integer class labels: the average over the rows of
`log (sum_j exp logits[i, j]) - logits[i, labels[i]]`. -/
noncomputable def cross_entropy (X : Tensor) (ys : List Nat) : ℝ :=
  (∑ i ∈ Finset.range (X.shape.getD 0 0),
      (Real.log (∑ j ∈ Finset.range (X.shape.getD 1 0),
          Real.exp (((X.data [i, j] : ℚ) : ℝ))) -
        (((X.data [i, ys.getD i 0] : ℚ) : ℝ)))) /
    ((X.shape.getD 0 0 : ℝ))

/-- Expression `cls_logits.max(dim=1)[1]` for row `i`: the first index attaining the
row maximum. -/
def argmaxRow (X : Tensor) (i : Nat) : Nat :=
  (List.range (X.shape.getD 1 0)).foldl
    (fun best j => if X.data [i, best] < X.data [i, j] then j else best) 0

/-- The `acc` entry of the loss dict: the fraction of rows whose label
equals the argmax of the logits. -/
def accuracy (X : Tensor) (ys : List Nat) : ℚ :=
  (((Finset.range (X.shape.getD 0 0)).filter
      (fun i => ys.getD i 0 = argmaxRow X i)).card : ℚ) /
    ((X.shape.getD 0 0 : ℚ))

/-- Expression `labels.view(batch_size, 1)` on a 1-D label list, as a matrix. -/
def labelsView2 (labels : List Nat) : Nat → Nat → Nat :=
  fun i _ => labels.getD i 0

/-- Expression `.repeat([1, num_segs])` on a `(batch, 1)` matrix: column `k` reads
column `k % 1` of the original. -/
def labelsRepeat (M : Nat → Nat → Nat) : Nat → Nat → Nat :=
  fun i k => M i (k % 1)

/-- Expression `.contiguous().view(-1)` on a `(b, n)` matrix: the row-major flat
list. -/
def labelsFlatten (M : Nat → Nat → Nat) (b n : Nat) : List Nat :=
  (List.range (b * n)).map (fun t => M (t / n) (t % n))

/-- Python `SimpleClsHead.loss(cls_logits, labels)` (the method does not read
`self`): for 3-D logits and 1-D labels it asserts the batch sizes agree,
replicates the labels (`view(batch_size, 1).repeat([1, num_segs])
.contiguous().view(-1)`) and flattens the logits
(`view(batch_size * num_segs, -1)`); the result holds the dict entries
`loss_cls` (cross-entropy) and `acc` (top-1 accuracy).  Labels are
modelled as a list, hence 1-D (`labels.dim() == 1` always holds). -/
noncomputable def SimpleClsHead.loss (cls_logits : Tensor)
    (labels : List Nat) : Except String (ℝ × ℚ) :=
  if cls_logits.shape.length = 3 then
    if cls_logits.shape.getD 0 0 = labels.length then
      let labels2 := labelsFlatten (labelsRepeat (labelsView2 labels))
        (cls_logits.shape.getD 0 0) (cls_logits.shape.getD 1 0)
      let logits2 := cls_logits.view2d
        (cls_logits.shape.getD 0 0 * cls_logits.shape.getD 1 0)
      .ok (cross_entropy logits2 labels2, accuracy logits2 labels2)
    else .error "assert batch_size == labels.size(0)"
  else .ok (cross_entropy cls_logits labels, accuracy cls_logits labels)

/-- The spec's flattening of `(batch, segments, classes)` logits to a
`(batch * segments, classes)` matrix: row `i` is segment `i % segments`
of sample `i / segments`. -/
def flattenSegments (x : Tensor) : Tensor :=
  { shape := [x.shape.getD 0 0 * x.shape.getD 1 0, x.shape.getD 2 0],
    data := fun i =>
      x.data [i.getD 0 0 / x.shape.getD 1 0, i.getD 0 0 % x.shape.getD 1 0,
        i.getD 1 0] }

/-- The spec's label replication: each sample's label once per segment. -/
def replicateLabels (labels : List Nat) (n : Nat) : List Nat :=
  labels.flatMap (fun y => List.replicate n y)

theorem getD_map_range (f : Nat → Nat) (n t : Nat) (ht : t < n) :
    ((List.range n).map f).getD t 0 = f t := by
  rw [List.getD_eq_getElem _ _ (by simpa using ht)]
  simp

theorem getD_flatMap_replicate (l : List Nat) (s t : Nat)
    (ht : t < l.length * s) :
    (l.flatMap (fun y => List.replicate s y)).getD t 0
      = l.getD (t / s) 0 := by
  induction l generalizing t with
  | nil => simp at ht
  | cons a l ih =>
    rcases Nat.eq_zero_or_pos s with hs | hs
    · subst hs
      simp at ht
    simp only [List.flatMap_cons]
    by_cases hts : t < s
    · rw [List.getD_append _ _ _ _ (by simpa using hts)]
      rw [List.getD_eq_getElem _ _ (by simpa using hts)]
      simp [Nat.div_eq_of_lt hts]
    · push_neg at hts
      rw [List.getD_append_right _ _ _ _ (by simpa using hts)]
      rw [List.length_cons, Nat.succ_mul] at ht
      have h2 : t - s < l.length * s := by omega
      rw [List.length_replicate, ih (t - s) h2,
        Nat.div_eq_sub_div hs hts]
      simp

theorem decodeIdx_merge (b s c i j : Nat) (hi : i < b * s) (hj : j < c) :
    decodeIdx [b, s, c] (i * c + j) = [i / s, i % s, j] := by
  have hs : 0 < s := by
    rcases Nat.eq_zero_or_pos s with h | h
    · subst h
      simp at hi
    · exact h
  have hc : 0 < c := by omega
  have hsc : 0 < s * c := Nat.mul_pos hs hc
  have hr : i % s < s := Nat.mod_lt i hs
  have hm : (i % s) * c + j < s * c := by
    have h1 : (i % s) * c + j < (i % s + 1) * c := by
      rw [Nat.succ_mul]
      omega
    have h2 : (i % s + 1) * c ≤ s * c := Nat.mul_le_mul_right c hr
    omega
  have hL : i * c + j = ((i % s) * c + j) + (s * c) * (i / s) := by
    have hdm : s * (i / s) + i % s = i := Nat.div_add_mod i s
    calc i * c + j = (s * (i / s) + i % s) * c + j := by rw [hdm]
    _ = ((i % s) * c + j) + (s * c) * (i / s) := by ring
  have hdiv : (i * c + j) / (s * c) = i / s := by
    rw [hL, Nat.add_mul_div_left _ _ hsc, Nat.div_eq_of_lt hm,
      Nat.zero_add]
  have hmod : (i * c + j) % (s * c) = (i % s) * c + j := by
    rw [hL, Nat.add_mul_mod_self_left, Nat.mod_eq_of_lt hm]
  have hdiv2 : ((i % s) * c + j) / c = i % s := by
    have : (i % s) * c + j = j + c * (i % s) := by ring
    rw [this, Nat.add_mul_div_left _ _ hc, Nat.div_eq_of_lt hj,
      Nat.zero_add]
  have hmod2 : ((i % s) * c + j) % c = j := by
    have : (i % s) * c + j = j + c * (i % s) := by ring
    rw [this, Nat.add_mul_mod_self_left, Nat.mod_eq_of_lt hj]
  simp only [decodeIdx, List.prod_cons, List.prod_nil, mul_one,
    Nat.div_one]
  rw [hdiv, hmod, hdiv2, hmod2]

theorem cross_entropy_congr (X Y : Tensor) (ys zs : List Nat)
    (h0 : X.shape.getD 0 0 = Y.shape.getD 0 0)
    (h1 : X.shape.getD 1 0 = Y.shape.getD 1 0)
    (hd : ∀ i j, i < X.shape.getD 0 0 → j < X.shape.getD 1 0 →
      X.data [i, j] = Y.data [i, j])
    (hy : ∀ i, i < X.shape.getD 0 0 → ys.getD i 0 = zs.getD i 0 ∧
      X.data [i, ys.getD i 0] = Y.data [i, ys.getD i 0]) :
    cross_entropy X ys = cross_entropy Y zs := by
  unfold cross_entropy
  rw [← h0, ← h1]
  congr 1
  refine Finset.sum_congr rfl ?_
  intro i hi
  rw [Finset.mem_range] at hi
  have hyi := hy i hi
  congr 1
  · congr 1
    refine Finset.sum_congr rfl ?_
    intro j hj
    rw [Finset.mem_range] at hj
    rw [hd i j hi hj]
  · rw [← hyi.1, hyi.2]

/-- C3: on 3-D logits `(batch, segments, classes)` with 1-D per-sample
labels, the head's loss entry `loss_cls` equals the cross-entropy of the
logits flattened to `(batch*segments, classes)` against the labels
replicated once per segment. -/
theorem clshead_loss_replicates (cls_logits : Tensor) (labels : List Nat)
    (b s c : Nat) (hsh : cls_logits.shape = [b, s, c])
    (hb : labels.length = b) (hc : ∀ y ∈ labels, y < c) :
    (SimpleClsHead.loss cls_logits labels).map Prod.fst
      = .ok (cross_entropy (flattenSegments cls_logits)
          (replicateLabels labels s)) := by
  have hlen : cls_logits.shape.length = 3 := by rw [hsh]; rfl
  have h00 : cls_logits.shape.getD 0 0 = b := by rw [hsh]; rfl
  have h10 : cls_logits.shape.getD 1 0 = s := by rw [hsh]; rfl
  have h20 : cls_logits.shape.getD 2 0 = c := by rw [hsh]; rfl
  unfold SimpleClsHead.loss
  rw [if_pos hlen, if_pos (by rw [h00, hb])]
  rw [h00, h10]
  simp only [Except.map]
  congr 1
  show cross_entropy (cls_logits.view2d (b * s))
      (labelsFlatten (labelsRepeat (labelsView2 labels)) b s)
    = cross_entropy (flattenSegments cls_logits)
      (replicateLabels labels s)
  rcases Nat.eq_zero_or_pos (b * s) with hbs | hbs
  · have hx0 : (cls_logits.view2d (b * s)).shape.getD 0 0 = 0 := hbs
    have hy0 : (flattenSegments cls_logits).shape.getD 0 0 = 0 := by
      show cls_logits.shape.getD 0 0 * cls_logits.shape.getD 1 0 = 0
      rw [h00, h10]
      exact hbs
    unfold cross_entropy
    rw [hx0, hy0]
    simp
  · have hs : 0 < s := by
      rcases Nat.eq_zero_or_pos s with h | h
      · subst h
        simp at hbs
      · exact h
    have hprod : cls_logits.shape.prod = (b * s) * c := by
      rw [hsh]
      simp [List.prod_cons, List.prod_nil]
      ring
    have hpd : cls_logits.shape.prod / (b * s) = c := by
      rw [hprod]
      exact Nat.mul_div_cancel_left c hbs
    have hdata : ∀ i j, i < b * s → j < c →
        (cls_logits.view2d (b * s)).data [i, j]
          = (flattenSegments cls_logits).data [i, j] := by
      intro i j hi hj
      show cls_logits.data (decodeIdx cls_logits.shape
          (i * (cls_logits.shape.prod / (b * s)) + j))
        = cls_logits.data [i / cls_logits.shape.getD 1 0,
            i % cls_logits.shape.getD 1 0, j]
      rw [hpd, h10, hsh, decodeIdx_merge b s c i j hi hj]
    have hl2 : ∀ i, i < b * s →
        (labelsFlatten (labelsRepeat (labelsView2 labels)) b s).getD i 0
          = labels.getD (i / s) 0 := by
      intro i hi
      unfold labelsFlatten labelsRepeat labelsView2
      exact getD_map_range _ _ _ hi
    have hr2 : ∀ i, i < b * s →
        (replicateLabels labels s).getD i 0 = labels.getD (i / s) 0 := by
      intro i hi
      unfold replicateLabels
      exact getD_flatMap_replicate labels s i (by rw [hb]; exact hi)
    apply cross_entropy_congr
    · show b * s = cls_logits.shape.getD 0 0 * cls_logits.shape.getD 1 0
      rw [h00, h10]
    · show cls_logits.shape.prod / (b * s) = cls_logits.shape.getD 2 0
      rw [hpd, h20]
    · intro i j hi hj
      have hj' : j < c := by
        have : (cls_logits.view2d (b * s)).shape.getD 1 0 = c := hpd
        rw [this] at hj
        exact hj
      exact hdata i j hi hj'
    · intro i hi
      have hi' : i < b * s := hi
      have hlab := hl2 i hi'
      have hrep := hr2 i hi'
      have hyc : labels.getD (i / s) 0 < c := by
        have hib : i / s < b := (Nat.div_lt_iff_lt_mul hs).mpr hi'
        have hmem : labels.getD (i / s) 0 ∈ labels := by
          rw [List.getD_eq_getElem _ _ (by rw [hb]; exact hib)]
          exact List.getElem_mem _
        exact hc _ hmem
      refine ⟨by rw [hlab, hrep], ?_⟩
      rw [hlab]
      exact hdata i _ hi' hyc

theorem clshead_loss_replicates_witness :
    ((⟨[1, 1, 1], fun _ => (0 : ℚ)⟩ : Tensor).shape = [1, 1, 1] ∧
      ([0] : List Nat).length = 1 ∧ ∀ y ∈ ([0] : List Nat), y < 1) ∧
    (SimpleClsHead.loss ⟨[1, 1, 1], fun _ => 0⟩ [0]).map Prod.fst
      = .ok (cross_entropy (flattenSegments ⟨[1, 1, 1], fun _ => 0⟩)
          (replicateLabels [0] 1)) := by
  refine ⟨⟨rfl, rfl, by decide⟩, ?_⟩
  exact clshead_loss_replicates ⟨[1, 1, 1], fun _ => 0⟩ [0] 1 1 1 rfl rfl
    (by decide)
